import Mathlib

/-!
# Verification of the Kentico Kontent delivery SDK mapping core

This development embeds the field-mapping engine (`FieldMapService` in
`src/lib/models/element/responses.ts`) and the rich-text resolver
(`RichTextResolver`, `src/unnamed/part_007`) of the repository in Lean, and
settles the specification's claims about them.

The JavaScript heap is modelled by an arena of typed items keyed by a
numeric allocation id; object references are arena ids, so "same instance"
is "same id".  The `processedItems` array is the list of ids in push order.
Exceptions are modelled by returning the mutated-so-far state together with
an `Except` value, mirroring the fact that in JS the array mutations and
console output performed before a `throw` persist.  `console.warn` calls
append a tag to the state's `warnings` list.  Recursion of `mapFields`
through modular/rich-text fields is tied with an explicit fuel parameter;
running out of fuel yields the distinguished `MapError.outOfFuel`.
-/

/-- System attributes of a content item (§3 of the design: codename, id,
type, language, collection, last-modified, sitemap locations).  The mapper
itself reads only `codename` and `type`. -/
structure SysAttrs where
  id : String := ""
  codename : String
  type : String := ""
  language : String := ""
  collection : String := ""
  lastModified : String := ""
  sitemapLocations : List String := []
  deriving Repr, DecidableEq

/-- A raw JSON value, restricted to the shapes the mapping core inspects.
Arrays that the mapper walks are arrays of codenames (strings). -/
inductive RawValue where
  | nullV
  | strV (s : String)
  | numV (n : Int)
  | arrV (items : List String)
  deriving Repr, DecidableEq

/-- JavaScript truthiness test used by the source's `if (!field.value)`
style guards: `null`/`undefined`, the empty string and `0` are falsy;
arrays (even empty ones) are truthy. -/
def RawValue.falsy : RawValue → Bool
  | .nullV => true
  | .strV s => s == ""
  | .numV n => n == 0
  | .arrV _ => false

/-- A raw link as it appears in a rich-text field's `links` JSON object
(`ILink`: codename, type, url_slug). -/
structure RawLink where
  codename : String := ""
  type : String := ""
  url_slug : String := ""
  deriving Repr, DecidableEq

/-- A mapped link (`new Link(linkId, codename, type, urlSlug)`). -/
structure Link where
  linkId : String
  codename : String
  type : String
  urlSlug : String
  deriving Repr, DecidableEq

/-- A raw field of a raw item (`FieldInterfaces.IField`): declared `name`,
`type` string, `value`, plus the rich-text specific `modular_content` and
`links` payloads and the taxonomy group. -/
structure RawField where
  name : String := ""
  type : String
  value : RawValue := .nullV
  taxonomy_group : Option String := none
  modular_content : Option RawValue := none
  links : Option (List (String × RawLink)) := none

/-- A raw content item (`IContentItem` as received from the server).
`system` and `elements` are optional because the mapper explicitly guards
against their absence. -/
structure RawItem where
  system : Option SysAttrs
  elements : Option (List (String × RawField))

/-- The sibling `modularContent` payload: a JSON object mapping codenames
to raw items; a missing key reads as `undefined` (here `none`). -/
abbrev ModularContent := List (String × RawItem)

/-- A typed field value, the result of `FieldMapService.mapField`.  The
modular and rich-text arms hold arena ids: references into the shared item
graph, never copies.  The url-slug arm keeps the deferred link resolver
exactly as `Fields.UrlSlugField` stores it. -/
inductive MappedField where
  | nullF
  | textF (name : String) (value : RawValue)
  | numberF (name : String) (value : RawValue)
  | dateTimeF (name : String) (value : RawValue)
  | multipleChoiceF (name : String) (value : RawValue)
  | assetsF (name : String) (value : RawValue)
  | taxonomyF (name : String) (value : RawValue) (group : Option String)
  | urlSlugF (name : String) (value : RawValue) (itemId : Nat)
      (resolver : Option (Link → String))
  | modularF (items : List Nat)
  | richTextF (name : String) (value : RawValue) (modularItems : List Nat)
      (links : List Link)

/-- The data carried by one typed item in the arena: its typed system
attributes, whether it was created through the generic fallback (no type
resolver registered for its type), and its properties in assignment
order. -/
structure TypedItemData where
  system : SysAttrs
  generic : Bool
  fields : List (String × MappedField)

/-- The mapping pass's mutable world: the arena of allocated typed items
(id, data), the `processedItems` array as a list of ids in push order, the
fresh-id counter and the `console.warn` transcript. -/
structure MapState where
  arena : List (Nat × TypedItemData) := []
  processed : List Nat := []
  nextId : Nat := 0
  warnings : List String := []

/-- Allocate a fresh typed item in the arena, returning its id (models a
JS `new` expression). -/
def MapState.alloc (st : MapState) (d : TypedItemData) : Nat × MapState :=
  (st.nextId, { st with arena := st.arena ++ [(st.nextId, d)], nextId := st.nextId + 1 })

/-- `processedItems.push(itemTyped)`. -/
def MapState.pushProcessed (st : MapState) (i : Nat) : MapState :=
  { st with processed := st.processed ++ [i] }

/-- `console.warn(msg)`. -/
def MapState.warn (st : MapState) (msg : String) : MapState :=
  { st with warnings := st.warnings ++ [msg] }

/-- `processedItems.find(m => m.system.codename === c)`: first processed id
whose arena entry carries codename `c`. -/
def MapState.findCodename (st : MapState) (c : String) : Option Nat :=
  st.processed.find? fun i =>
    match List.lookup i st.arena with
    | some d => d.system.codename == c
    | none => false

/-- JS property assignment on `fields`: replace an existing key in place,
otherwise append. -/
def setFieldAssoc (fields : List (String × MappedField)) (k : String)
    (v : MappedField) : List (String × MappedField) :=
  if fields.any (fun p => p.1 == k) then
    fields.map fun p => if p.1 == k then (k, v) else p
  else
    fields ++ [(k, v)]

/-- `itemTyped[propertyName] = value` on the arena entry `i`. -/
def MapState.setProp (st : MapState) (i : Nat) (k : String) (v : MappedField) :
    MapState :=
  { st with arena := st.arena.map fun p =>
      if p.1 == i then (p.1, { p.2 with fields := setFieldAssoc p.2.fields k v }) else p }

/-- The errors the mapping pass can raise, one constructor per `throw
Error(...)` site of the source (plus `outOfFuel` for the fuel embedding and
`jsTypeError` for the implicit TypeErrors JS raises when the source
dereferences a missing object). -/
inductive MapError where
  | outOfFuel
  | itemNotDefined
  | missingSystem
  | missingElements (codename : String)
  | processedItemsNotInitialized
  | processedItemsNotArray
  | unsupportedFieldType (fieldType : String)
  | missingModularInRichText (codename : String) (fieldName : String)
  | jsTypeError
  deriving Repr, DecidableEq

/-- The `MalformedResponse` taxonomy of the spec's §7: the two errors about
a missing `system` / `elements` on a raw item. -/
def MapError.isMalformedResponse : MapError → Bool
  | .missingSystem => true
  | .missingElements _ => true
  | _ => false

/-- The `processedItems` argument as a JS value: `null`/`undefined`, some
non-array value, or the processed-items array itself (whose contents live
in the `MapState`). -/
inductive ProcArg where
  | jsNull
  | jsNotArray
  | arr
  deriving Repr, DecidableEq

/-- `DeliveryClientConfig`, restricted to the part the mapping core reads:
the `enableAdvancedLogging` flag. -/
structure ClientCfg where
  enableAdvancedLogging : Bool := false

/-- `IItemQueryConfig`, restricted to the part `FieldMapService` reads: the
per-query link resolver for url-slug fields. -/
structure QueryCfg where
  linkResolver : Option (Link → String) := none

/-- Modelled from the spec: the `TypeResolverService` and the
decorator/property-resolver machinery (`createTypedObj`,
`createContentItem`, `FieldDecorators.getPropertyName`, the item classes'
`propertyResolver` and `linkResolver` members) are referenced by
`FieldMapService` but their definitions are not among the source files.
Per §4.1 and §4.2 step 4 the registry is a pure lookup keyed by the content
type's discriminator string: whether a resolver is registered, the item
class's optional property resolver (returning the empty string models a
falsy result), the optional decorator-declared name for a raw element
codename, and the item class's optional link resolver. -/
structure Registry where
  hasTypeResolver : String → Bool := fun _ => false
  propertyResolver : String → Option (String → String) := fun _ => none
  decoratorName : String → String → Option String := fun _ _ => none
  itemLinkResolver : String → Option (Link → String) := fun _ => none

/-- The recursive knot of `mapFields`: raw item, sibling modular content,
query config, the `processedItems` argument, state in — state and result
out. -/
abbrev MapRec :=
  Option RawItem → ModularContent → QueryCfg → ProcArg → MapState →
    MapState × Except MapError Nat

/-- Modelled from the spec: the `FieldType` enum is referenced by the
dispatch in `mapField` but its definition is not among the source files;
the closed set of declared type strings follows the spec's list (§4.2 step
5): text, number, datetime, multiple_choice, asset, rich_text, url_slug,
taxonomy, modular_content. -/
def supportedFieldTypes : List String :=
  ["text", "number", "datetime", "multiple_choice", "asset", "rich_text",
   "url_slug", "taxonomy", "modular_content"]

/-- `FieldMapService.mapRichTextLinks`: walk the keys of the `links` JSON
object and build `Link` values. -/
def mapRichTextLinks (linksJson : List (String × RawLink)) : List Link :=
  linksJson.map fun p => ⟨p.1, p.2.codename, p.2.type, p.2.url_slug⟩

/-- The loop body of `mapModularField`'s `fieldModularContent.forEach`:
for each codename, a missing sibling item is dropped (with a console
warning when advanced logging is on); a present one is reused from
`processedItems` when already mapped, otherwise mapped recursively. -/
def mapModularListGo (cfg : ClientCfg) (rec : MapRec) (mc : ModularContent)
    (qc : QueryCfg) (fieldName : String) :
    List String → MapState → MapState × Except MapError (List Nat)
  | [], st => (st, .ok [])
  | c :: rest, st =>
    match List.lookup c mc with
    | none =>
      let st := if cfg.enableAdvancedLogging then
        st.warn ("Cannot map '" ++ fieldName ++ "' modular content item") else st
      mapModularListGo cfg rec mc qc fieldName rest st
    | some modularItem =>
      match modularItem.system with
      | none => (st, .error .jsTypeError)
      | some msys =>
        match st.findCodename msys.codename with
        | some pid =>
          match mapModularListGo cfg rec mc qc fieldName rest st with
          | (st, .error e) => (st, .error e)
          | (st, .ok l) => (st, .ok (pid :: l))
        | none =>
          match rec (some modularItem) mc qc .arr st with
          | (st, .error e) => (st, .error e)
          | (st, .ok nid) =>
            match mapModularListGo cfg rec mc qc fieldName rest st with
            | (st, .error e) => (st, .error e)
            | (st, .ok l) => (st, .ok (nid :: l))

/-- `FieldMapService.mapModularField`: null guards, then the forEach over
the field's codename array.  A non-array truthy value makes the JS
`forEach` call fail with a TypeError. -/
def mapModularFieldRec (cfg : ClientCfg) (rec : MapRec) (mc : ModularContent)
    (qc : QueryCfg) (field? : Option RawField) (st : MapState) :
    MapState × Except MapError MappedField :=
  match field? with
  | none =>
    let st := if cfg.enableAdvancedLogging then
      st.warn "Cannot map modular content field because field does not exist" else st
    (st, .ok .nullF)
  | some field =>
    if field.value.falsy then
      let st := if cfg.enableAdvancedLogging then
        st.warn ("Cannot map modular content of '" ++ field.name ++
          "' because its value does not exist") else st
      (st, .ok .nullF)
    else
      match field.value with
      | .arrV codenames =>
        match mapModularListGo cfg rec mc qc field.name codenames st with
        | (st, .error e) => (st, .error e)
        | (st, .ok ids) => (st, .ok (.modularF ids))
      | _ => (st, .error .jsTypeError)

/-- The loop body of `mapRichTextField`'s `field.modular_content.forEach`:
a codename missing from the sibling payload is a hard error; a present one
is mapped by an unconditional recursive `mapFields` call, and the result is
collected. -/
def mapRichTextListGo (cfg : ClientCfg) (rec : MapRec) (mc : ModularContent)
    (qc : QueryCfg) (fieldName : String) :
    List String → MapState → MapState × Except MapError (List Nat)
  | [], st => (st, .ok [])
  | c :: rest, st =>
    match List.lookup c mc with
    | none => (st, .error (.missingModularInRichText c fieldName))
    | some modularItem =>
      match rec (some modularItem) mc qc .arr st with
      | (st, .error e) => (st, .error e)
      | (st, .ok nid) =>
        match mapRichTextListGo cfg rec mc qc fieldName rest st with
        | (st, .error e) => (st, .error e)
        | (st, .ok l) => (st, .ok (nid :: l))

/-- `FieldMapService.mapRichTextField`: gather the nested modular items (a
truthy non-array `modular_content` fails the `Array.isArray` check and is
skipped), then map the links (`Object.keys` on a missing `links` object is
a JS TypeError) and build the rich-text field. -/
def mapRichTextRec (cfg : ClientCfg) (rec : MapRec) (mc : ModularContent)
    (qc : QueryCfg) (field : RawField) (st : MapState) :
    MapState × Except MapError MappedField :=
  let step :=
    match field.modular_content with
    | none => (st, Except.ok ([] : List Nat))
    | some mcv =>
      if mcv.falsy then (st, Except.ok ([] : List Nat))
      else
        match mcv with
        | .arrV codenames => mapRichTextListGo cfg rec mc qc field.name codenames st
        | _ => (st, Except.ok ([] : List Nat))
  match step with
  | (st, .error e) => (st, .error e)
  | (st, .ok ids) =>
    match field.links with
    | none => (st, .error .jsTypeError)
    | some linksJson =>
      (st, .ok (.richTextF field.name field.value ids (mapRichTextLinks linksJson)))

/-- `FieldMapService.getLinkResolverForUrlSlugField`: the query config's
link resolver has priority over the item class's. -/
def getLinkResolverForUrlSlugField (reg : Registry) (sysType : String)
    (qc : QueryCfg) : Option (Link → String) :=
  match qc.linkResolver with
  | some f => some f
  | none => reg.itemLinkResolver sysType

/-- `FieldMapService.mapField`: dispatch on the raw field's declared type
string; an unrecognized type warns when advanced logging is enabled and
then throws unconditionally. -/
def mapFieldRec (cfg : ClientCfg) (reg : Registry) (rec : MapRec)
    (mc : ModularContent) (qc : QueryCfg) (itemId : Nat) (sysType : String)
    (field : RawField) (st : MapState) : MapState × Except MapError MappedField :=
  if field.type == "modular_content" then
    mapModularFieldRec cfg rec mc qc (some field) st
  else if field.type == "text" then
    (st, .ok (.textF field.name field.value))
  else if field.type == "asset" then
    (st, .ok (.assetsF field.name field.value))
  else if field.type == "number" then
    (st, .ok (.numberF field.name field.value))
  else if field.type == "multiple_choice" then
    (st, .ok (.multipleChoiceF field.name field.value))
  else if field.type == "datetime" then
    (st, .ok (.dateTimeF field.name field.value))
  else if field.type == "rich_text" then
    mapRichTextRec cfg rec mc qc field st
  else if field.type == "url_slug" then
    (st, .ok (.urlSlugF field.name field.value itemId
      (getLinkResolverForUrlSlugField reg sysType qc)))
  else if field.type == "taxonomy" then
    (st, .ok (.taxonomyF field.name field.value field.taxonomy_group))
  else
    let st := if cfg.enableAdvancedLogging then
      st.warn ("Unsupported field type '" ++ field.type ++ "'") else st
    (st, .error (.unsupportedFieldType field.type))

/-- The `properties.forEach` loop of `mapFields`: resolve the target
property name (item property resolver, then decorator, then the raw
codename) and assign the mapped field onto the typed item. -/
def mapItemFieldsGo (cfg : ClientCfg) (reg : Registry) (rec : MapRec)
    (mc : ModularContent) (qc : QueryCfg) (itemId : Nat) (sysType : String) :
    List (String × RawField) → MapState → MapState × Except MapError Unit
  | [], st => (st, .ok ())
  | (fieldName, field) :: rest, st =>
    let p1 := match reg.propertyResolver sysType with
      | some f => f fieldName
      | none => ""
    let p2 := if p1 == "" then
        (match reg.decoratorName sysType fieldName with
          | some s => s
          | none => "")
      else p1
    let propertyName := if p2 == "" then fieldName else p2
    match mapFieldRec cfg reg rec mc qc itemId sysType field st with
    | (st, .error e) => (st, .error e)
    | (st, .ok v) =>
      mapItemFieldsGo cfg reg rec mc qc itemId sysType rest (st.setProp itemId propertyName v)

/-- The body of `FieldMapService.mapFields`, with the recursive call
abstracted: the four argument guards in source order, creation of the typed
item via the registry (fallback to a generic content item), the
push-unless-already-processed cycle guard, and the field loop. -/
def mapFieldsStep (cfg : ClientCfg) (reg : Registry) (rec : MapRec) : MapRec :=
  fun item? mc qc parg st =>
    match item? with
    | none => (st, .error .itemNotDefined)
    | some item =>
      match item.system with
      | none => (st, .error .missingSystem)
      | some sys =>
        match item.elements with
        | none => (st, .error (.missingElements sys.codename))
        | some elements =>
          match parg with
          | .jsNull => (st, .error .processedItemsNotInitialized)
          | .jsNotArray => (st, .error .processedItemsNotArray)
          | .arr =>
            let (itemId, st) := st.alloc
              { system := sys, generic := !(reg.hasTypeResolver sys.type), fields := [] }
            let st := match st.findCodename sys.codename with
              | some _ => st
              | none => st.pushProcessed itemId
            match mapItemFieldsGo cfg reg rec mc qc itemId sys.type elements st with
            | (st, .error e) => (st, .error e)
            | (st, .ok _) => (st, .ok itemId)

/-- `FieldMapService.mapFields` with fuel tying the recursive knot; each
nested `mapFields` call spends one unit. -/
def mapFieldsF (cfg : ClientCfg) (reg : Registry) : Nat → MapRec
  | 0 => fun _ _ _ _ st => (st, .error .outOfFuel)
  | n + 1 => mapFieldsStep cfg reg (mapFieldsF cfg reg n)

/-!
## Rich-text resolver (`RichTextResolver`, `src/unnamed/part_007`)

The resolver works over the already-built item graph, supplied as a
`getLinkedItem` lookup.  Its operations return the produced value paired
with the `console.warn` transcript, inside `Except` for the `throw Error`
sites.
-/

/-- The errors the rich-text resolver can throw, one constructor per
`throw Error(...)` site of `src/unnamed/part_007`. -/
inductive RTErr where
  | linkedItemNotFoundForImage (itemCodename imageId : String)
  | invalidElement (itemCodename elementName : String)
  | imageNotFound (imageId itemCodename elementName : String)
  | linkedItemNotFound (itemCodename : String)
  deriving Repr, DecidableEq

/-- An image descriptor carried by a rich-text element. -/
structure RTImage where
  imageId : String
  url : String
  deriving Repr, DecidableEq

/-- A property value of an already-resolved item, as the image search sees
it: either a rich-text element (`Elements.RichTextElement` instance, with
its images and linked-item codenames) or anything else. -/
inductive RTElementVal where
  | richText (images : List RTImage) (linkedItemCodenames : List String)
  | otherEl
  deriving Repr, DecidableEq

/-- The result of resolving an image placeholder
(`RichTextImageResolverResult`). -/
structure ImageResult where
  url : String
  deriving Repr, DecidableEq

/-- The result of resolving a url-slug/hyperlink placeholder. -/
structure UrlSlugResult where
  html : String := ""
  url : String := ""
  deriving Repr, DecidableEq

/-- System attributes of an already-resolved item as the resolver reads
them (`linkedItem.system.type`). -/
structure RTSystem where
  type : String := ""
  codename : String := ""
  deriving Repr, DecidableEq

/-- A resolved link (`links` array entries matched by `linkId`). -/
structure RTLink where
  linkId : String
  codename : String := ""
  type : String := ""
  urlSlug : String := ""
  deriving Repr, DecidableEq

/-- The part of an already-resolved item that resolver callback functions
receive: its system attributes and its enumerable properties.  An item's
`_config` cannot recur in the type of its own resolver functions, so the
callbacks are typed over this view of the item. -/
structure RTItemView where
  system : RTSystem := {}
  props : List (String × RTElementVal) := []

/-- An item-level or query-level rich-text resolver: receives the linked
item and the context's content type and returns the replacement HTML. -/
abbrev RTResolverFn := RTItemView → String → String

/-- The `_config` of an item class: the item's own declared rich-text
resolver. -/
structure RTItemCfg where
  richTextResolver : Option RTResolverFn := none

/-- An already-resolved content item as the rich-text resolver sees it:
its system attributes, its `_config` (the item class's declared resolvers),
and its enumerable properties (`Object.keys` order). -/
structure RTItem where
  system : RTSystem := {}
  config : Option RTItemCfg := none
  props : List (String × RTElementVal) := []

/-- The view of an item handed to resolver callbacks. -/
def RTItem.view (i : RTItem) : RTItemView :=
  { system := i.system, props := i.props }

/-- The link context handed to url-slug resolvers (`linkText`, the looked
up item if any, and the link id). -/
structure RTLinkContext where
  linkText : String
  item : Option RTItemView
  linkId : String

/-- A url-slug resolver: returns `none` for a falsy (unresolved) result,
matching the source's `if (queryUrlSlugResult)` truthiness test. -/
abbrev UrlSlugResolverFn := RTLink → RTLinkContext → Option UrlSlugResult

/-- `IItemQueryConfig` as the rich-text resolver reads it.  Modelled from
the spec for the default of `throwErrorForMissingLinkedItems`: the flag is
read with a truthiness test and the spec states lenient (false) is the
default. -/
structure RTQueryCfg where
  richTextResolver : Option RTResolverFn := none
  throwErrorForMissingLinkedItems : Bool := false
  richTextImageResolver : Option (RTImage → String → ImageResult) := none
  urlSlugResolver : Option UrlSlugResolverFn := none

/-- The per-call config object assembled by `resolveData`. -/
structure RTConfig where
  enableAdvancedLogging : Bool := false
  queryConfig : RTQueryCfg := {}

/-- One step of the image search inside the codename loop of
`tryGetImageFromLinkedItem`: try each referenced linked item in turn with
the tied-back recursive search `rec`. -/
def imageFromCodenames (rec : RTItem → Option RTImage)
    (getLinkedItem : String → Option RTItem) : List String → Option RTImage
  | [] => none
  | c :: rest =>
    match getLinkedItem c with
    | some li =>
      match rec li with
      | some img => some img
      | none => imageFromCodenames rec getLinkedItem rest
    | none => imageFromCodenames rec getLinkedItem rest

/-- The property loop of `tryGetImageFromLinkedItem`: for each rich-text
property, look among its own images, then recurse through its referenced
linked items. -/
def imageFromProps (rec : RTItem → Option RTImage)
    (getLinkedItem : String → Option RTItem) (imageId : String) :
    List (String × RTElementVal) → Option RTImage
  | [] => none
  | (_, .richText imgs cods) :: rest =>
    match imgs.find? (fun m => m.imageId == imageId) with
    | some img => some img
    | none =>
      match imageFromCodenames rec getLinkedItem cods with
      | some img => some img
      | none => imageFromProps rec getLinkedItem imageId rest
  | (_, .otherEl) :: rest => imageFromProps rec getLinkedItem imageId rest

/-- `RichTextResolver.tryGetImageFromLinkedItem`, with fuel: the source
recurses through the linked-item graph with no visited set, so the
embedding bounds the depth explicitly. -/
def tryGetImageF : Nat → String → (String → Option RTItem) → RTItem → Option RTImage
  | 0, _, _, _ => none
  | n + 1, imageId, getLinkedItem, item =>
    imageFromProps (tryGetImageF n imageId getLinkedItem) getLinkedItem imageId item.props

/-- `RichTextResolver.getImageResult`: look up the linked item (missing is
fatal only in strict mode), check the directly named element, fall back to
the recursive graph search, and fail hard when the image is nowhere to be
found; a configured image resolver overrides the final URL. -/
def getImageResult (fuel : Nat) (cfg : RTConfig)
    (getLinkedItem : String → Option RTItem)
    (itemCodename imageId elementName : String) :
    Except RTErr (ImageResult × List String) :=
  match getLinkedItem itemCodename with
  | none =>
    if cfg.queryConfig.throwErrorForMissingLinkedItems then
      .error (.linkedItemNotFoundForImage itemCodename imageId)
    else
      .ok ({ url := "" },
        if cfg.enableAdvancedLogging then
          ["Cannot resolve image with id '" ++ imageId ++
            "' because linked item with codename '" ++ itemCodename ++
            "' is not available. Empty image URL is returned."]
        else [])
  | some linkedItem =>
    match List.lookup elementName linkedItem.props with
    | some .otherEl => .error (.invalidElement itemCodename elementName)
    | directEl =>
      let direct := match directEl with
        | some (.richText imgs _) => imgs.find? (fun m => m.imageId == imageId)
        | _ => none
      let image := match direct with
        | some img => some img
        | none => tryGetImageF fuel imageId getLinkedItem linkedItem
      match image with
      | none => .error (.imageNotFound imageId itemCodename elementName)
      | some img =>
        match cfg.queryConfig.richTextImageResolver with
        | some f => .ok (f img elementName, [])
        | none => .ok ({ url := img.url }, [])

/-- `RichTextResolver.getLinkedItemHtml`: look up the linked item (strict
mode throws when it is missing, lenient mode yields the empty string with
an optional diagnostic), then pick the resolver — the query config's
rich-text resolver first, else the item's own `_config.richTextResolver` —
and fall back to the empty string when neither exists. -/
def getLinkedItemHtml (cfg : RTConfig) (getLinkedItem : String → Option RTItem)
    (itemCodename itemType : String) : Except RTErr (String × List String) :=
  match getLinkedItem itemCodename with
  | none =>
    if cfg.queryConfig.throwErrorForMissingLinkedItems then
      .error (.linkedItemNotFound itemCodename)
    else
      .ok ("",
        if cfg.enableAdvancedLogging then
          ["Cannot resolve linked item '" ++ itemCodename ++
            "' because it is not available in response. Item is resolved to empty string."]
        else [])
  | some linkedItem =>
    let resolver := match cfg.queryConfig.richTextResolver with
      | some r => some r
      | none =>
        match linkedItem.config with
        | some c => c.richTextResolver
        | none => none
    match resolver with
    | none =>
      .ok ("",
        if cfg.enableAdvancedLogging then
          ["Cannot resolve html of '" ++ linkedItem.system.type ++ "' used by item '" ++
            itemCodename ++ "' because no rich text resolver was configured."]
        else [])
    | some r => .ok (r linkedItem.view itemType, [])

/-- `RichTextResolver.getUrlSlugResult`: match the placeholder's link id
against the links array; a missing link yields an empty result with an
optional diagnostic; otherwise try the query config's url-slug resolver,
then the global per-content-type resolver, each accepted only when its
result is truthy; an unresolved url also yields an empty result with an
optional diagnostic.  No branch throws. -/
def getUrlSlugResult (cfg : RTConfig) (links : List RTLink) (itemId : String)
    (getLinkedItem : String → Option RTItem) (linkText : String)
    (getGlobalUrlSlugResolver : String → Option UrlSlugResolverFn) :
    Except RTErr (UrlSlugResult × List String) :=
  match links.find? (fun m => m.linkId == itemId) with
  | none =>
    .ok ({ html := "", url := "" },
      if cfg.enableAdvancedLogging then
        ["Cannot resolve URL for item '" ++ itemId ++
          "' because no link with this id was found."]
      else [])
  | some existingLink =>
    let linkContext : RTLinkContext :=
      { linkText := linkText, item := (getLinkedItem existingLink.codename).map RTItem.view,
        linkId := itemId }
    let fromQuery := match cfg.queryConfig.urlSlugResolver with
      | some f => f existingLink linkContext
      | none => none
    match fromQuery with
    | some r => .ok (r, [])
    | none =>
      let fromGlobal := match getGlobalUrlSlugResolver existingLink.type with
        | some f => f existingLink linkContext
        | none => none
      match fromGlobal with
      | some r => .ok (r, [])
      | none =>
        .ok ({ html := "", url := "" },
          if cfg.enableAdvancedLogging then
            ["Url for item of '" ++ existingLink.type ++ "' type with id '" ++
              existingLink.linkId ++ "' was not resolved."]
          else [])

/-!
## Shared fixtures
-/

/-- A registry with nothing registered: every item is created through the
generic fallback and declares no resolvers. -/
def reg0 : Registry := {}

/-- The default client configuration (advanced logging off). -/
def cfg0 : ClientCfg := {}

/-- The default item query configuration. -/
def qc0 : QueryCfg := {}

/-!
## Claims about the rich-text resolver
-/

/-- C6: for a rich-text linked-item embed whose target item is present in
the graph, the embed's HTML comes from the per-query rich-text resolver
when one is configured, else from the linked item's own declared
(`_config`) resolver, and when neither exists the embed resolves to the
empty string without an error. -/
theorem getLinkedItemHtml_resolver_precedence
    (cfg : RTConfig) (get : String → Option RTItem) (c ty : String) (li : RTItem)
    (hli : get c = some li) :
    (∀ f, cfg.queryConfig.richTextResolver = some f →
      getLinkedItemHtml cfg get c ty = .ok (f li.view ty, [])) ∧
    (∀ icfg g, cfg.queryConfig.richTextResolver = none → li.config = some icfg →
      icfg.richTextResolver = some g →
      getLinkedItemHtml cfg get c ty = .ok (g li.view ty, [])) ∧
    (cfg.queryConfig.richTextResolver = none →
      (li.config = none ∨ ∃ icfg, li.config = some icfg ∧ icfg.richTextResolver = none) →
      getLinkedItemHtml cfg get c ty =
        .ok ("", if cfg.enableAdvancedLogging then
          ["Cannot resolve html of '" ++ li.system.type ++ "' used by item '" ++ c ++
            "' because no rich text resolver was configured."]
        else [])) := by
  refine ⟨?_, ?_, ?_⟩
  · intro f hf
    simp [getLinkedItemHtml, hli, hf]
  · intro icfg g hq hc hg
    simp [getLinkedItemHtml, hli, hq, hc, hg]
  · intro hq hcfg
    rcases hcfg with hc | ⟨icfg, hc, hg⟩
    · simp [getLinkedItemHtml, hli, hq, hc]
    · simp [getLinkedItemHtml, hli, hq, hc, hg]

/-- A linked item carrying its own declared rich-text resolver, used to
instantiate the precedence theorem. -/
def liWit : RTItem :=
  { system := { type := "movie", codename := "warrior" },
    config := some { richTextResolver := some fun _ _ => "ITEM" } }

/-- Witness for C6 at a concrete input: with both a per-query resolver and
an item-declared resolver available, the per-query one's output is used. -/
theorem getLinkedItemHtml_resolver_precedence_witness :
    (∀ f, ({ queryConfig := { richTextResolver := some fun _ _ => "QUERY" } }
        : RTConfig).queryConfig.richTextResolver = some f →
      getLinkedItemHtml { queryConfig := { richTextResolver := some fun _ _ => "QUERY" } }
        (fun x => if x == "warrior" then some liWit else none) "warrior" "movie" =
        .ok (f liWit.view "movie", [])) ∧
    (∀ icfg g, ({ queryConfig := { richTextResolver := some fun _ _ => "QUERY" } }
        : RTConfig).queryConfig.richTextResolver = none → liWit.config = some icfg →
      icfg.richTextResolver = some g →
      getLinkedItemHtml { queryConfig := { richTextResolver := some fun _ _ => "QUERY" } }
        (fun x => if x == "warrior" then some liWit else none) "warrior" "movie" =
        .ok (g liWit.view "movie", [])) ∧
    (({ queryConfig := { richTextResolver := some fun _ _ => "QUERY" } }
        : RTConfig).queryConfig.richTextResolver = none →
      (liWit.config = none ∨ ∃ icfg, liWit.config = some icfg ∧ icfg.richTextResolver = none) →
      getLinkedItemHtml { queryConfig := { richTextResolver := some fun _ _ => "QUERY" } }
        (fun x => if x == "warrior" then some liWit else none) "warrior" "movie" =
        .ok ("", if ({ queryConfig := { richTextResolver := some fun _ _ => "QUERY" } }
            : RTConfig).enableAdvancedLogging then
          ["Cannot resolve html of '" ++ liWit.system.type ++ "' used by item '" ++ "warrior" ++
            "' because no rich text resolver was configured."]
        else [])) :=
  getLinkedItemHtml_resolver_precedence
    { queryConfig := { richTextResolver := some fun _ _ => "QUERY" } }
    (fun x => if x == "warrior" then some liWit else none) "warrior" "movie" liWit (by simp)

/-- C7: for a rich-text linked-item embed whose referenced item is absent
from the built graph, resolution throws `LinkedItemNotFound` in strict mode
(`throwErrorForMissingLinkedItems`) and yields the empty string with an
optional diagnostic in lenient mode; the default query configuration is
lenient. -/
theorem getLinkedItemHtml_missing_item_modes
    (cfg : RTConfig) (get : String → Option RTItem) (c ty : String)
    (hmiss : get c = none) :
    (cfg.queryConfig.throwErrorForMissingLinkedItems = true →
      getLinkedItemHtml cfg get c ty = .error (.linkedItemNotFound c)) ∧
    (cfg.queryConfig.throwErrorForMissingLinkedItems = false →
      getLinkedItemHtml cfg get c ty =
        .ok ("", if cfg.enableAdvancedLogging then
          ["Cannot resolve linked item '" ++ c ++
            "' because it is not available in response. Item is resolved to empty string."]
        else [])) ∧
    ({} : RTQueryCfg).throwErrorForMissingLinkedItems = false := by
  refine ⟨?_, ?_, rfl⟩
  · intro hs; simp [getLinkedItemHtml, hmiss, hs]
  · intro hs; simp [getLinkedItemHtml, hmiss, hs]

/-- Witness for C7 at a concrete input: the graph has no items; strict mode
raises `LinkedItemNotFound` and lenient mode yields the empty string. -/
theorem getLinkedItemHtml_missing_item_modes_witness :
    (({ queryConfig := { throwErrorForMissingLinkedItems := true } }
        : RTConfig).queryConfig.throwErrorForMissingLinkedItems = true →
      getLinkedItemHtml { queryConfig := { throwErrorForMissingLinkedItems := true } }
        (fun _ => none) "actor_x" "actor" = .error (.linkedItemNotFound "actor_x")) ∧
    (({ queryConfig := { throwErrorForMissingLinkedItems := true } }
        : RTConfig).queryConfig.throwErrorForMissingLinkedItems = false →
      getLinkedItemHtml { queryConfig := { throwErrorForMissingLinkedItems := true } }
        (fun _ => none) "actor_x" "actor" =
        .ok ("", if ({ queryConfig := { throwErrorForMissingLinkedItems := true } }
            : RTConfig).enableAdvancedLogging then
          ["Cannot resolve linked item '" ++ "actor_x" ++
            "' because it is not available in response. Item is resolved to empty string."]
        else [])) ∧
    ({} : RTQueryCfg).throwErrorForMissingLinkedItems = false :=
  getLinkedItemHtml_missing_item_modes
    { queryConfig := { throwErrorForMissingLinkedItems := true } }
    (fun _ => none) "actor_x" "actor" rfl

/-- C8: a rich-text hyperlink placeholder whose link id is absent from the
links map yields an empty result (empty html and url) with an optional
diagnostic and never throws, whatever the configuration — including strict
mode. -/
theorem getUrlSlugResult_missing_link_never_fatal
    (cfg : RTConfig) (links : List RTLink) (itemId : String)
    (get : String → Option RTItem) (linkText : String)
    (gg : String → Option UrlSlugResolverFn)
    (hmiss : links.find? (fun m => m.linkId == itemId) = none) :
    getUrlSlugResult cfg links itemId get linkText gg =
      .ok ({ html := "", url := "" },
        if cfg.enableAdvancedLogging then
          ["Cannot resolve URL for item '" ++ itemId ++
            "' because no link with this id was found."]
        else []) := by
  simp [getUrlSlugResult, hmiss]

/-- Witness for C8 at a concrete input: strict mode and advanced logging
are both on, the link map is empty, and the result is still the empty
non-fatal one together with its diagnostic. -/
theorem getUrlSlugResult_missing_link_never_fatal_witness :
    getUrlSlugResult
        { enableAdvancedLogging := true,
          queryConfig := { throwErrorForMissingLinkedItems := true } }
        [] "link1" (fun _ => none) "text" (fun _ => none) =
      .ok ({ html := "", url := "" },
        if ({ enableAdvancedLogging := true,
              queryConfig := { throwErrorForMissingLinkedItems := true } }
            : RTConfig).enableAdvancedLogging then
          ["Cannot resolve URL for item '" ++ "link1" ++
            "' because no link with this id was found."]
        else []) :=
  getUrlSlugResult_missing_link_never_fatal
    { enableAdvancedLogging := true,
      queryConfig := { throwErrorForMissingLinkedItems := true } }
    [] "link1" (fun _ => none) "text" (fun _ => none) rfl

/-- A linked item with no rich-text properties at all: any image search
through it is exhaustive and fails. -/
def ghostItem : RTItem := { system := { type := "t", codename := "ghost" } }

/-- Counterexample for C9: the lenient configuration is selected
(`throwErrorForMissingLinkedItems` off, advanced logging on), the linked
item is present, the image is nowhere to be found — and `getImageResult`
still throws the fatal `ImageNotFound` error instead of resolving to empty
content, so lenient mode does not lift the fatality claimed by C9. -/
theorem getImageResult_lenient_still_fatal_cx :
    getImageResult 5
        { enableAdvancedLogging := true,
          queryConfig := { throwErrorForMissingLinkedItems := false } }
        (fun c => if c == "ghost" then some ghostItem else none) "ghost" "img1" "body" =
      .error (.imageNotFound "img1" "ghost" "body") := rfl

/-- C9 (amended): an image id found neither in the directly named element
nor by the exhaustive recursive search is a fatal `ImageNotFound` error
under every configuration — strict or lenient; the lenient configuration
only softens the preceding linked-item lookup step, where a missing linked
item codename resolves to an empty image URL with an optional
diagnostic. -/
theorem getImageResult_not_found_always_fatal
    (fuel : Nat) (cfg : RTConfig) (get : String → Option RTItem)
    (c imageId el : String) (li : RTItem)
    (hli : get c = some li)
    (hdirect : List.lookup el li.props = none ∨
      ∃ imgs cods, List.lookup el li.props = some (.richText imgs cods) ∧
        imgs.find? (fun m => m.imageId == imageId) = none)
    (hsearch : tryGetImageF fuel imageId get li = none) :
    (getImageResult fuel cfg get c imageId el =
      .error (.imageNotFound imageId c el)) ∧
    (∀ get2 : String → Option RTItem, get2 c = none →
      cfg.queryConfig.throwErrorForMissingLinkedItems = false →
      getImageResult fuel cfg get2 c imageId el =
        .ok ({ url := "" },
          if cfg.enableAdvancedLogging then
            ["Cannot resolve image with id '" ++ imageId ++
              "' because linked item with codename '" ++ c ++
              "' is not available. Empty image URL is returned."]
          else [])) := by
  constructor
  · rcases hdirect with hd | ⟨imgs, cods, hd, hf⟩
    · simp [getImageResult, hli, hd, hsearch]
    · simp [getImageResult, hli, hd, hf, hsearch]
  · intro get2 h2 hlenient
    simp [getImageResult, h2, hlenient]

/-- Witness for C9's amended theorem at a concrete input: the strict flag
is on this time, so the first conjunct shows the fatality is not tied to
strictness, and the second conjunct exhibits the lenient missing-item
branch. -/
theorem getImageResult_not_found_always_fatal_witness :
    (getImageResult 5 { queryConfig := { throwErrorForMissingLinkedItems := false } }
        (fun c => if c == "ghost" then some ghostItem else none) "ghost" "img1" "body" =
      .error (.imageNotFound "img1" "ghost" "body")) ∧
    (∀ get2 : String → Option RTItem, get2 "ghost" = none →
      ({ queryConfig := { throwErrorForMissingLinkedItems := false } }
        : RTConfig).queryConfig.throwErrorForMissingLinkedItems = false →
      getImageResult 5 { queryConfig := { throwErrorForMissingLinkedItems := false } }
          get2 "ghost" "img1" "body" =
        .ok ({ url := "" },
          if ({ queryConfig := { throwErrorForMissingLinkedItems := false } }
              : RTConfig).enableAdvancedLogging then
            ["Cannot resolve image with id '" ++ "img1" ++
              "' because linked item with codename '" ++ "ghost" ++
              "' is not available. Empty image URL is returned."]
          else [])) :=
  getImageResult_not_found_always_fatal 5
    { queryConfig := { throwErrorForMissingLinkedItems := false } }
    (fun c => if c == "ghost" then some ghostItem else none) "ghost" "img1" "body"
    ghostItem rfl (Or.inl rfl) rfl

/-!
## Claims about the field mapper's error handling
-/

/-- C4 (amended): dispatch on a declared type string outside the closed
set always raises the fatal `UnsupportedFieldType` error; the
`enableAdvancedLogging` flag adds a console warning first but no
configuration suppresses the throw. -/
theorem mapField_unknown_type_always_throws
    (cfg : ClientCfg) (reg : Registry) (rec : MapRec) (mc : ModularContent)
    (qc : QueryCfg) (itemId : Nat) (sysType : String) (st : MapState)
    (field : RawField) (h : field.type ∉ supportedFieldTypes) :
    mapFieldRec cfg reg rec mc qc itemId sysType field st =
      ((if cfg.enableAdvancedLogging then
          st.warn ("Unsupported field type '" ++ field.type ++ "'") else st),
        .error (.unsupportedFieldType field.type)) := by
  simp only [supportedFieldTypes, List.mem_cons, List.not_mem_nil, or_false, not_or] at h
  obtain ⟨h1, h2, h3, h4, h5, h6, h7, h8, h9⟩ := h
  simp [mapFieldRec, h1, h2, h3, h4, h5, h6, h7, h8, h9]

/-- A raw item carrying one field with the unrecognized declared type
`custom_element`. -/
def rawBad : RawItem :=
  { system := some { codename := "bad_item", type := "t" },
    elements := some [("z", { name := "z", type := "custom_element", value := .strV "v" })] }

/-- Counterexample for C4: even with `enableAdvancedLogging` switched on —
the only leniency configuration the mapper consults at this branch —
mapping an item with an unknown field type still aborts with
`UnsupportedFieldType`; the flag only adds the console warning, it cannot
turn the throw into a warn. -/
theorem mapFields_unknown_type_warn_config_cx :
    (mapFieldsF { enableAdvancedLogging := true } reg0 2 (some rawBad) [] qc0 .arr {}).2 =
      .error (.unsupportedFieldType "custom_element") ∧
    (mapFieldsF { enableAdvancedLogging := true } reg0 2 (some rawBad) [] qc0 .arr {}).1.warnings =
      ["Unsupported field type 'custom_element'"] :=
  ⟨rfl, rfl⟩

/-- Witness for C4's amended theorem at a concrete input. -/
theorem mapField_unknown_type_always_throws_witness :
    mapFieldRec { enableAdvancedLogging := true } reg0
        (mapFieldsF { enableAdvancedLogging := true } reg0 1) [] qc0 0 "t"
        { name := "z", type := "custom_element", value := .strV "v" } {} =
      ((if ({ enableAdvancedLogging := true } : ClientCfg).enableAdvancedLogging then
          MapState.warn {} ("Unsupported field type '" ++ "custom_element" ++ "'") else {}),
        .error (.unsupportedFieldType "custom_element")) :=
  mapField_unknown_type_always_throws { enableAdvancedLogging := true } reg0
    (mapFieldsF { enableAdvancedLogging := true } reg0 1) [] qc0 0 "t" {}
    { name := "z", type := "custom_element", value := .strV "v" } (by decide)

/-- C5 (amended): in `mapModularField` a referenced codename absent from
the sibling payload is always silently dropped from the resulting list —
with a console warning when advanced logging is on, and with no
configuration that turns the drop into an error; in `mapRichTextField`,
by contrast, an absent codename always raises an error, under every
configuration. -/
theorem missing_modular_codename_behaviour
    (cfg : ClientCfg) (rec : MapRec) (mc : ModularContent) (qc : QueryCfg)
    (fn c : String) (rest : List String) (st : MapState)
    (hmiss : List.lookup c mc = none) :
    (mapModularListGo cfg rec mc qc fn (c :: rest) st =
      mapModularListGo cfg rec mc qc fn rest
        (if cfg.enableAdvancedLogging then
          st.warn ("Cannot map '" ++ fn ++ "' modular content item") else st)) ∧
    (mapModularListGo cfg rec mc qc fn [c] st =
      ((if cfg.enableAdvancedLogging then
          st.warn ("Cannot map '" ++ fn ++ "' modular content item") else st), .ok [])) ∧
    (mapRichTextListGo cfg rec mc qc fn (c :: rest) st =
      (st, .error (.missingModularInRichText c fn))) := by
  refine ⟨?_, ?_, ?_⟩ <;> simp [mapModularListGo, mapRichTextListGo, hmiss]

/-- A raw item with a rich-text field whose `modular_content` lists a
codename that is absent from the sibling payload. -/
def rawRT : RawItem :=
  { system := some { codename := "host", type := "t" },
    elements := some [("body",
      { name := "body", type := "rich_text", value := .strV "<p>x</p>",
        modular_content := some (.arrV ["ghost"]), links := some [] })] }

/-- Counterexample for C5: under the default configuration, a modular
codename listed by a rich-text field but missing from the sibling payload
is not silently dropped — the whole mapping aborts with an error naming
the codename and the field. -/
theorem mapFields_richtext_missing_modular_cx :
    (mapFieldsF cfg0 reg0 4 (some rawRT) [] qc0 .arr {}).2 =
      .error (.missingModularInRichText "ghost" "body") := rfl

/-- Witness for C5's amended theorem at a concrete input (advanced logging
on, so the drop is visible through the warning). -/
theorem missing_modular_codename_behaviour_witness :
    (mapModularListGo { enableAdvancedLogging := true }
        (mapFieldsF { enableAdvancedLogging := true } reg0 1) [] qc0 "rel"
        ("ghost" :: ["x"]) {} =
      mapModularListGo { enableAdvancedLogging := true }
        (mapFieldsF { enableAdvancedLogging := true } reg0 1) [] qc0 "rel" ["x"]
        (if ({ enableAdvancedLogging := true } : ClientCfg).enableAdvancedLogging then
          MapState.warn {} ("Cannot map '" ++ "rel" ++ "' modular content item") else {})) ∧
    (mapModularListGo { enableAdvancedLogging := true }
        (mapFieldsF { enableAdvancedLogging := true } reg0 1) [] qc0 "rel" ["ghost"] {} =
      ((if ({ enableAdvancedLogging := true } : ClientCfg).enableAdvancedLogging then
          MapState.warn {} ("Cannot map '" ++ "rel" ++ "' modular content item") else {}),
        .ok [])) ∧
    (mapRichTextListGo { enableAdvancedLogging := true }
        (mapFieldsF { enableAdvancedLogging := true } reg0 1) [] qc0 "rel"
        ("ghost" :: ["x"]) {} =
      ({}, .error (.missingModularInRichText "ghost" "rel"))) :=
  missing_modular_codename_behaviour { enableAdvancedLogging := true }
    (mapFieldsF { enableAdvancedLogging := true } reg0 1) [] qc0 "rel" "ghost" ["x"] {} rfl

/-- C10: calling `mapFields` with a `processedItems` argument that is
`null`/`undefined` or not an array always throws before mapping anything —
the state comes back untouched — and, for an item that passes the earlier
guards, the error is precisely the processed-items one for the offending
argument shape. -/
theorem mapFields_requires_processed_array
    (cfg : ClientCfg) (reg : Registry) (n : Nat) (item? : Option RawItem)
    (mc : ModularContent) (qc : QueryCfg) (parg : ProcArg) (st : MapState)
    (hn : 0 < n) (hp : parg ≠ .arr) :
    (∃ e, mapFieldsF cfg reg n item? mc qc parg st = (st, .error e)) ∧
    (∀ item sys els, item? = some item → item.system = some sys →
      item.elements = some els →
      mapFieldsF cfg reg n item? mc qc parg st =
        (st, .error (if parg = .jsNull then .processedItemsNotInitialized
          else .processedItemsNotArray))) := by
  cases n with
  | zero => exact absurd hn (by simp)
  | succ m =>
    constructor
    · cases item? with
      | none => exact ⟨.itemNotDefined, rfl⟩
      | some item =>
        cases hsys : item.system with
        | none => exact ⟨.missingSystem, by simp [mapFieldsF, mapFieldsStep, hsys]⟩
        | some sys =>
          cases hels : item.elements with
          | none =>
            exact ⟨.missingElements sys.codename,
              by simp [mapFieldsF, mapFieldsStep, hsys, hels]⟩
          | some els =>
            cases parg with
            | arr => exact absurd rfl hp
            | jsNull =>
              exact ⟨.processedItemsNotInitialized,
                by simp [mapFieldsF, mapFieldsStep, hsys, hels]⟩
            | jsNotArray =>
              exact ⟨.processedItemsNotArray,
                by simp [mapFieldsF, mapFieldsStep, hsys, hels]⟩
    · intro item sys els hi hs he
      subst hi
      cases parg with
      | arr => exact absurd rfl hp
      | jsNull => simp [mapFieldsF, mapFieldsStep, hs, he]
      | jsNotArray => simp [mapFieldsF, mapFieldsStep, hs, he]

/-- Witness for C10 at a concrete input: a well-formed raw item, a
`null` `processedItems` argument, fuel 1. -/
theorem mapFields_requires_processed_array_witness :
    (∃ e, mapFieldsF cfg0 reg0 1 (some rawBad) [] qc0 .jsNull {} = ({}, .error e)) ∧
    (∀ item sys els, (some rawBad : Option RawItem) = some item →
      item.system = some sys → item.elements = some els →
      mapFieldsF cfg0 reg0 1 (some rawBad) [] qc0 .jsNull {} =
        ({}, .error (if ProcArg.jsNull = .jsNull then .processedItemsNotInitialized
          else .processedItemsNotArray))) :=
  mapFields_requires_processed_array cfg0 reg0 1 (some rawBad) [] qc0 .jsNull {}
    (by decide) (by decide)

/-!
## The cycle guard and the processed-items set
-/

/-- One half of a two-item cycle: an item whose single linked-items field
references the other item's codename. -/
def cycleItem (c other fieldName ty : String) : RawItem :=
  { system := some { codename := c, type := ty },
    elements := some [(fieldName,
      { name := fieldName, type := "modular_content", value := .arrV [other] })] }

/-- The sibling payload for the two-item cycle `a ↔ b`. -/
def cycleMC (a b fa fb ta tb : String) : ModularContent :=
  [(a, cycleItem a b fa ta), (b, cycleItem b a fb tb)]

/-- C1: mapping a response graph with a cycle (item `a`'s linked-items
field references `b` and vice versa) terminates; each codename appears
exactly once in the processed-items set (`processed = [0, 1]`, instance 0
carrying codename `a` and instance 1 codename `b`); and every reference to
a codename resolves to that codename's unique instance from both
directions: `a`'s field holds a reference to instance 1 and `b`'s field a
reference back to instance 0. -/
theorem mapFields_cycle_terminates_unique
    (a b fa fb ta tb : String) (n : Nat) (hab : a ≠ b) :
    (mapFieldsF cfg0 reg0 (n + 1 + 1) (some (cycleItem a b fa ta))
        (cycleMC a b fa fb ta tb) qc0 .arr {}).2 = .ok 0 ∧
    (mapFieldsF cfg0 reg0 (n + 1 + 1) (some (cycleItem a b fa ta))
        (cycleMC a b fa fb ta tb) qc0 .arr {}).1.processed = [0, 1] ∧
    (mapFieldsF cfg0 reg0 (n + 1 + 1) (some (cycleItem a b fa ta))
        (cycleMC a b fa fb ta tb) qc0 .arr {}).1.findCodename a = some 0 ∧
    (mapFieldsF cfg0 reg0 (n + 1 + 1) (some (cycleItem a b fa ta))
        (cycleMC a b fa fb ta tb) qc0 .arr {}).1.findCodename b = some 1 ∧
    List.lookup 0 (mapFieldsF cfg0 reg0 (n + 1 + 1) (some (cycleItem a b fa ta))
        (cycleMC a b fa fb ta tb) qc0 .arr {}).1.arena =
      some { system := { codename := a, type := ta }, generic := true,
             fields := [(fa, .modularF [1])] } ∧
    List.lookup 1 (mapFieldsF cfg0 reg0 (n + 1 + 1) (some (cycleItem a b fa ta))
        (cycleMC a b fa fb ta tb) qc0 .arr {}).1.arena =
      some { system := { codename := b, type := tb }, generic := true,
             fields := [(fb, .modularF [0])] } := by
  have hab' : (a == b) = false := beq_eq_false_iff_ne.mpr hab
  have hba' : (b == a) = false := beq_eq_false_iff_ne.mpr (Ne.symm hab)
  have hrun : mapFieldsF cfg0 reg0 (n + 1 + 1) (some (cycleItem a b fa ta))
      (cycleMC a b fa fb ta tb) qc0 .arr {} =
      ({ arena := [
          (0, { system := { codename := a, type := ta }, generic := true,
                fields := [(fa, .modularF [1])] }),
          (1, { system := { codename := b, type := tb }, generic := true,
                fields := [(fb, .modularF [0])] })],
         processed := [0, 1], nextId := 2, warnings := [] }, .ok 0) := by
    simp [mapFieldsF, mapFieldsStep, mapItemFieldsGo, mapFieldRec,
      mapModularFieldRec, mapModularListGo, cycleItem, cycleMC, reg0, cfg0, qc0,
      MapState.alloc, MapState.pushProcessed, MapState.findCodename,
      MapState.setProp, MapState.warn, setFieldAssoc, RawValue.falsy,
      List.lookup, List.find?, hab', hba']
  rw [hrun]
  refine ⟨rfl, rfl, ?_, ?_, ?_, ?_⟩ <;>
    simp [MapState.findCodename, List.lookup, List.find?, hab', hba']

/-- Witness for C1 at concrete codenames. -/
theorem mapFields_cycle_terminates_unique_witness :
    (mapFieldsF cfg0 reg0 (3 + 1 + 1) (some (cycleItem "item_a" "item_b" "rel_a" "movie"))
        (cycleMC "item_a" "item_b" "rel_a" "rel_b" "movie" "actor") qc0 .arr {}).2 = .ok 0 ∧
    (mapFieldsF cfg0 reg0 (3 + 1 + 1) (some (cycleItem "item_a" "item_b" "rel_a" "movie"))
        (cycleMC "item_a" "item_b" "rel_a" "rel_b" "movie" "actor") qc0 .arr {}).1.processed
      = [0, 1] ∧
    (mapFieldsF cfg0 reg0 (3 + 1 + 1) (some (cycleItem "item_a" "item_b" "rel_a" "movie"))
        (cycleMC "item_a" "item_b" "rel_a" "rel_b" "movie" "actor") qc0 .arr
        {}).1.findCodename "item_a" = some 0 ∧
    (mapFieldsF cfg0 reg0 (3 + 1 + 1) (some (cycleItem "item_a" "item_b" "rel_a" "movie"))
        (cycleMC "item_a" "item_b" "rel_a" "rel_b" "movie" "actor") qc0 .arr
        {}).1.findCodename "item_b" = some 1 ∧
    List.lookup 0 (mapFieldsF cfg0 reg0 (3 + 1 + 1)
        (some (cycleItem "item_a" "item_b" "rel_a" "movie"))
        (cycleMC "item_a" "item_b" "rel_a" "rel_b" "movie" "actor") qc0 .arr {}).1.arena =
      some { system := { codename := "item_a", type := "movie" }, generic := true,
             fields := [("rel_a", .modularF [1])] } ∧
    List.lookup 1 (mapFieldsF cfg0 reg0 (3 + 1 + 1)
        (some (cycleItem "item_a" "item_b" "rel_a" "movie"))
        (cycleMC "item_a" "item_b" "rel_a" "rel_b" "movie" "actor") qc0 .arr {}).1.arena =
      some { system := { codename := "item_b", type := "actor" }, generic := true,
             fields := [("rel_b", .modularF [0])] } :=
  mapFields_cycle_terminates_unique "item_a" "item_b" "rel_a" "rel_b" "movie" "actor" 3
    (by decide)

/-- The already-mapped instance of codename `dup` sitting in the arena
before `mapFields` is called again. -/
def dupData : TypedItemData :=
  { system := { codename := "dup", type := "t" }, generic := true, fields := [] }

/-- A raw item whose codename has already been mapped once (instance 0 of
`dupPre` below). -/
def dupItem : RawItem :=
  { system := some { codename := "dup", type := "t" },
    elements := some [("title", { name := "title", type := "text", value := .strV "v" })] }

/-- A prior state in which codename `dup` is already processed as
instance 0. -/
def dupPre : MapState :=
  { arena := [(0, dupData)], processed := [0], nextId := 1 }

/-- Counterexample for C2: `mapFields` on an item whose codename is
already in `processedItems` does not return the existing entry (instance
0): it allocates a fresh instance 1, re-maps the item's fields into it and
returns it. -/
theorem mapFields_reentry_cx :
    (mapFieldsF cfg0 reg0 2 (some dupItem) [] qc0 .arr dupPre).2 = .ok 1 ∧
    (Except.ok 1 : Except MapError Nat) ≠ .ok 0 ∧
    (mapFieldsF cfg0 reg0 2 (some dupItem) [] qc0 .arr dupPre).1.processed = [0] ∧
    List.lookup 1 (mapFieldsF cfg0 reg0 2 (some dupItem) [] qc0 .arr dupPre).1.arena =
      some { system := { codename := "dup", type := "t" }, generic := true,
             fields := [("title", .textF "title" (.strV "v"))] } :=
  ⟨rfl, by simp, rfl, rfl⟩

/-- C2 (amended): when the codename already has an entry in
`processedItems`, `mapFields` does not push a second entry for it, but it
does not return the existing entry either — it re-maps the item into a
fresh instance and returns that; the return-the-existing-entry-immediately
guard is implemented in `mapModularField`, which hands back the processed
entry without invoking `mapFields` at all (the result below is the same
for every `rec`). -/
theorem mapFields_reentry_behaviour
    (c ty fn : String) (v : RawValue) (d0 : TypedItemData) (n : Nat)
    (hd0 : d0.system.codename = c) :
    (mapFieldsF cfg0 reg0 (n + 1)
        (some { system := some { codename := c, type := ty },
                elements := some [(fn, { name := fn, type := "text", value := v })] })
        [] qc0 .arr { arena := [(0, d0)], processed := [0], nextId := 1 } =
      ({ arena := [(0, d0),
          (1, { system := { codename := c, type := ty }, generic := true,
                fields := [(fn, .textF fn v)] })],
         processed := [0], nextId := 2, warnings := [] }, .ok 1)) ∧
    (∀ (rec : MapRec) (it : RawItem) (s2 : SysAttrs) (qc : QueryCfg) (fname : String),
      it.system = some s2 → s2.codename = c →
      mapModularListGo cfg0 rec [(c, it)] qc fname [c]
          { arena := [(0, d0)], processed := [0], nextId := 1 } =
        ({ arena := [(0, d0)], processed := [0], nextId := 1 }, .ok [0])) := by
  constructor
  · simp [mapFieldsF, mapFieldsStep, mapItemFieldsGo, mapFieldRec, reg0, cfg0,
      MapState.alloc, MapState.pushProcessed, MapState.findCodename,
      MapState.setProp, MapState.warn, setFieldAssoc,
      List.lookup, List.find?, hd0]
  · intro rec it s2 qc fname hsys hc
    simp [mapModularListGo, MapState.findCodename, List.lookup, List.find?,
      cfg0, hsys, hc, hd0]

/-- Witness for C2's amended theorem at a concrete input. -/
theorem mapFields_reentry_behaviour_witness :
    (mapFieldsF cfg0 reg0 (1 + 1)
        (some { system := some { codename := "dup", type := "t" },
                elements := some [("title",
                  { name := "title", type := "text", value := .strV "v" })] })
        [] qc0 .arr { arena := [(0, dupData)], processed := [0], nextId := 1 } =
      ({ arena := [(0, dupData),
          (1, { system := { codename := "dup", type := "t" }, generic := true,
                fields := [("title", .textF "title" (.strV "v"))] })],
         processed := [0], nextId := 2, warnings := [] }, .ok 1)) ∧
    (∀ (rec : MapRec) (it : RawItem) (s2 : SysAttrs) (qc : QueryCfg) (fname : String),
      it.system = some s2 → s2.codename = "dup" →
      mapModularListGo cfg0 rec [("dup", it)] qc fname ["dup"]
          { arena := [(0, dupData)], processed := [0], nextId := 1 } =
        ({ arena := [(0, dupData)], processed := [0], nextId := 1 }, .ok [0])) :=
  mapFields_reentry_behaviour "dup" "t" "title" (.strV "v") dupData 1 rfl

/-!
## Malformed responses abort the pass (C3)
-/

/-- Well-formedness of a raw item: both `system` and `elements` present —
the precondition of `mapFields`. -/
def wfRawItem (item : RawItem) : Prop :=
  item.system.isSome ∧ item.elements.isSome

/-- Well-formedness of the sibling payload: every raw item in it is well
formed. -/
def wfMC (mc : ModularContent) : Prop :=
  ∀ p ∈ mc, wfRawItem p.2

/-- A successful association-list lookup is a membership. -/
theorem mem_of_lookup_eq_some {α β : Type} [BEq α] [LawfulBEq α]
    {c : α} {b : β} : ∀ {l : List (α × β)}, List.lookup c l = some b → (c, b) ∈ l := by
  intro l
  induction l with
  | nil => intro h; simp [List.lookup] at h
  | cons p rest ih =>
    intro h
    obtain ⟨k, v⟩ := p
    simp only [List.lookup] at h
    split at h
    next hck =>
      obtain rfl : c = k := eq_of_beq hck
      obtain rfl : v = b := by injection h
      exact List.mem_cons_self _ _
    next => exact List.mem_cons_of_mem _ (ih h)

/-- The induction invariant for C3: the tied-back recursive `mapFields`
call never fails with a `MalformedResponse` error on a well-formed
item. -/
def RecNoMalformed (mc : ModularContent) (rec : MapRec) : Prop :=
  ∀ item qc st st' e, wfRawItem item →
    rec (some item) mc qc .arr st = (st', .error e) →
    e.isMalformedResponse = false

/-- Errors escaping the modular-codename loop over a well-formed sibling
payload are never `MalformedResponse` errors. -/
theorem mapModularListGo_noMalformed
    (cfg : ClientCfg) (rec : MapRec) (mc : ModularContent) (qc : QueryCfg)
    (fn : String) (hrec : RecNoMalformed mc rec) (hmc : wfMC mc) :
    ∀ (l : List String) (st st' : MapState) (e : MapError),
      mapModularListGo cfg rec mc qc fn l st = (st', .error e) →
      e.isMalformedResponse = false := by
  intro l
  induction l with
  | nil => intro st st' e h; simp [mapModularListGo] at h
  | cons c rest ih =>
    intro st st' e h
    simp only [mapModularListGo] at h
    split at h
    next hl =>
      exact ih _ _ _ h
    next mi hl =>
      have hwf : wfRawItem mi := hmc (c, mi) (mem_of_lookup_eq_some hl)
      split at h
      next hsys =>
        simp only [Prod.mk.injEq, Except.error.injEq] at h
        obtain ⟨-, h2⟩ := h
        subst h2
        rfl
      next msys hsys =>
        split at h
        next pid hfc =>
          split at h
          next st1 e1 hgo =>
            simp only [Prod.mk.injEq, Except.error.injEq] at h
            obtain ⟨-, h2⟩ := h
            subst h2
            exact ih _ _ _ hgo
          next st1 l1 hgo => simp at h
        next hfc =>
          split at h
          next st1 e1 hr =>
            simp only [Prod.mk.injEq, Except.error.injEq] at h
            obtain ⟨-, h2⟩ := h
            subst h2
            exact hrec mi qc st st1 e1 hwf hr
          next st1 nid hr =>
            split at h
            next st2 e2 hgo =>
              simp only [Prod.mk.injEq, Except.error.injEq] at h
              obtain ⟨-, h2⟩ := h
              subst h2
              exact ih _ _ _ hgo
            next st2 l2 hgo => simp at h

/-- Errors escaping the rich-text nested-item loop over a well-formed
sibling payload are never `MalformedResponse` errors. -/
theorem mapRichTextListGo_noMalformed
    (cfg : ClientCfg) (rec : MapRec) (mc : ModularContent) (qc : QueryCfg)
    (fn : String) (hrec : RecNoMalformed mc rec) (hmc : wfMC mc) :
    ∀ (l : List String) (st st' : MapState) (e : MapError),
      mapRichTextListGo cfg rec mc qc fn l st = (st', .error e) →
      e.isMalformedResponse = false := by
  intro l
  induction l with
  | nil => intro st st' e h; simp [mapRichTextListGo] at h
  | cons c rest ih =>
    intro st st' e h
    simp only [mapRichTextListGo] at h
    split at h
    next hl =>
      simp only [Prod.mk.injEq, Except.error.injEq] at h
      obtain ⟨-, h2⟩ := h
      subst h2
      rfl
    next mi hl =>
      have hwf : wfRawItem mi := hmc (c, mi) (mem_of_lookup_eq_some hl)
      split at h
      next st1 e1 hr =>
        simp only [Prod.mk.injEq, Except.error.injEq] at h
        obtain ⟨-, h2⟩ := h
        subst h2
        exact hrec mi qc st st1 e1 hwf hr
      next st1 nid hr =>
        split at h
        next st2 e2 hgo =>
          simp only [Prod.mk.injEq, Except.error.injEq] at h
          obtain ⟨-, h2⟩ := h
          subst h2
          exact ih _ _ _ hgo
        next st2 l2 hgo => simp at h

/-- Errors escaping `mapModularField` over a well-formed sibling payload
are never `MalformedResponse` errors. -/
theorem mapModularFieldRec_noMalformed
    (cfg : ClientCfg) (rec : MapRec) (mc : ModularContent) (qc : QueryCfg)
    (field? : Option RawField) (st st' : MapState) (e : MapError)
    (hrec : RecNoMalformed mc rec) (hmc : wfMC mc)
    (h : mapModularFieldRec cfg rec mc qc field? st = (st', .error e)) :
    e.isMalformedResponse = false := by
  simp only [mapModularFieldRec] at h
  split at h
  next => simp at h
  next field =>
    split at h
    next => simp at h
    next =>
      split at h
      next codenames =>
        split at h
        next st1 e1 hgo =>
          simp only [Prod.mk.injEq, Except.error.injEq] at h
          obtain ⟨-, h2⟩ := h
          subst h2
          exact mapModularListGo_noMalformed cfg rec mc qc field.name hrec hmc _ _ _ _ hgo
        next st1 ids hgo => simp at h
      next =>
        simp only [Prod.mk.injEq, Except.error.injEq] at h
        obtain ⟨-, h2⟩ := h
        subst h2
        rfl

/-- Errors escaping `mapRichTextField` over a well-formed sibling payload
are never `MalformedResponse` errors. -/
theorem mapRichTextRec_noMalformed
    (cfg : ClientCfg) (rec : MapRec) (mc : ModularContent) (qc : QueryCfg)
    (field : RawField) (st st' : MapState) (e : MapError)
    (hrec : RecNoMalformed mc rec) (hmc : wfMC mc)
    (h : mapRichTextRec cfg rec mc qc field st = (st', .error e)) :
    e.isMalformedResponse = false := by
  simp only [mapRichTextRec] at h
  split at h
  next st1 e1 hstep =>
    simp only [Prod.mk.injEq, Except.error.injEq] at h
    obtain ⟨-, h2⟩ := h
    subst h2
    split at hstep
    next => simp at hstep
    next mcv =>
      split at hstep
      next => simp at hstep
      next =>
        split at hstep
        next codenames =>
          exact mapRichTextListGo_noMalformed cfg rec mc qc field.name hrec hmc _ _ _ _ hstep
        next => simp at hstep
  next st1 ids hstep =>
    split at h
    next =>
      simp only [Prod.mk.injEq, Except.error.injEq] at h
      obtain ⟨-, h2⟩ := h
      subst h2
      rfl
    next linksJson => simp at h

set_option maxHeartbeats 1600000 in
/-- Errors escaping the per-field dispatch over a well-formed sibling
payload are never `MalformedResponse` errors. -/
theorem mapFieldRec_noMalformed
    (cfg : ClientCfg) (reg : Registry) (rec : MapRec) (mc : ModularContent)
    (qc : QueryCfg) (itemId : Nat) (sysType : String) (field : RawField)
    (st st' : MapState) (e : MapError)
    (hrec : RecNoMalformed mc rec) (hmc : wfMC mc)
    (h : mapFieldRec cfg reg rec mc qc itemId sysType field st = (st', .error e)) :
    e.isMalformedResponse = false := by
  simp only [mapFieldRec] at h
  split at h
  next => exact mapModularFieldRec_noMalformed cfg rec mc qc _ st st' e hrec hmc h
  next =>
    split at h
    next => exact Except.noConfusion (congrArg Prod.snd h)
    next =>
      split at h
      next => exact Except.noConfusion (congrArg Prod.snd h)
      next =>
        split at h
        next => exact Except.noConfusion (congrArg Prod.snd h)
        next =>
          split at h
          next => exact Except.noConfusion (congrArg Prod.snd h)
          next =>
            split at h
            next => exact Except.noConfusion (congrArg Prod.snd h)
            next =>
              split at h
              next => exact mapRichTextRec_noMalformed cfg rec mc qc field st st' e hrec hmc h
              next =>
                split at h
                next => exact Except.noConfusion (congrArg Prod.snd h)
                next =>
                  split at h
                  next => exact Except.noConfusion (congrArg Prod.snd h)
                  next =>
                    simp only [Prod.mk.injEq, Except.error.injEq] at h
                    obtain ⟨-, h2⟩ := h
                    subst h2
                    rfl

/-- Errors escaping the field loop of `mapFields` over a well-formed
sibling payload are never `MalformedResponse` errors. -/
theorem mapItemFieldsGo_noMalformed
    (cfg : ClientCfg) (reg : Registry) (rec : MapRec) (mc : ModularContent)
    (qc : QueryCfg) (itemId : Nat) (sysType : String)
    (hrec : RecNoMalformed mc rec) (hmc : wfMC mc) :
    ∀ (fields : List (String × RawField)) (st st' : MapState) (e : MapError),
      mapItemFieldsGo cfg reg rec mc qc itemId sysType fields st = (st', .error e) →
      e.isMalformedResponse = false := by
  intro fields
  induction fields with
  | nil => intro st st' e h; simp [mapItemFieldsGo] at h
  | cons p rest ih =>
    intro st st' e h
    obtain ⟨fieldName, field⟩ := p
    simp only [mapItemFieldsGo] at h
    split at h
    next st1 e1 hf =>
      simp only [Prod.mk.injEq, Except.error.injEq] at h
      obtain ⟨-, h2⟩ := h
      subst h2
      exact mapFieldRec_noMalformed cfg reg rec mc qc itemId sysType field st st1 e1 hrec hmc hf
    next st1 v hf =>
      exact ih _ _ _ h

/-- Over a well-formed sibling payload, `mapFields` never fails with a
`MalformedResponse` error on a well-formed item, whatever the fuel. -/
theorem mapFieldsF_noMalformed
    (cfg : ClientCfg) (reg : Registry) (mc : ModularContent) (hmc : wfMC mc) :
    ∀ n, RecNoMalformed mc (mapFieldsF cfg reg n) := by
  intro n
  induction n with
  | zero =>
    intro item qc st st' e hwf h
    simp only [mapFieldsF, Prod.mk.injEq, Except.error.injEq] at h
    obtain ⟨-, h2⟩ := h
    subst h2
    rfl
  | succ m ih =>
    intro item qc st st' e hwf h
    obtain ⟨hsys, hels⟩ := hwf
    obtain ⟨sys, hsys⟩ := Option.isSome_iff_exists.mp hsys
    obtain ⟨els, hels⟩ := Option.isSome_iff_exists.mp hels
    simp only [mapFieldsF, mapFieldsStep, hsys, hels] at h
    split at h
    next st1 e1 hgo =>
      simp only [Prod.mk.injEq, Except.error.injEq] at h
      obtain ⟨-, h2⟩ := h
      subst h2
      exact mapItemFieldsGo_noMalformed cfg reg (mapFieldsF cfg reg m) mc qc _ _ ih hmc
        els _ _ _ hgo
    next st1 nid hgo => simp at h

/-- C3: when a raw item's `system` attributes or `elements` map is absent,
`mapFields` aborts with the corresponding `MalformedResponse` error and
the state comes back untouched — nothing was produced or registered; and
when both are present (for the item and for every sibling item the
recursion can reach), no `MalformedResponse` error can be the outcome of
the mapping pass. -/
theorem mapFields_malformed_response_aborts
    (cfg : ClientCfg) (reg : Registry) (n : Nat) (item : RawItem)
    (mc : ModularContent) (qc : QueryCfg) (parg : ProcArg) (st : MapState)
    (hn : 0 < n) :
    (item.system = none →
      mapFieldsF cfg reg n (some item) mc qc parg st = (st, .error .missingSystem)) ∧
    (∀ sys, item.system = some sys → item.elements = none →
      mapFieldsF cfg reg n (some item) mc qc parg st =
        (st, .error (.missingElements sys.codename))) ∧
    (wfRawItem item → wfMC mc → parg = .arr →
      ∀ st' e, mapFieldsF cfg reg n (some item) mc qc parg st = (st', .error e) →
        e.isMalformedResponse = false) := by
  cases n with
  | zero => exact absurd hn (by simp)
  | succ m =>
    refine ⟨?_, ?_, ?_⟩
    · intro hsys
      simp [mapFieldsF, mapFieldsStep, hsys]
    · intro sys hsys hels
      simp [mapFieldsF, mapFieldsStep, hsys, hels]
    · intro hwf hmc hparg st' e h
      subst hparg
      exact mapFieldsF_noMalformed cfg reg mc hmc (m + 1) item qc st st' e hwf h

/-- A raw item missing its `system` attributes. -/
def noSysItem : RawItem :=
  { system := none,
    elements := some [("title", { name := "title", type := "text", value := .strV "v" })] }

/-- Witness for C3 at a concrete input: an item without `system`
attributes; the theorem's first conjunct applies and evaluates to the
malformed-response abort with the state untouched. -/
theorem mapFields_malformed_response_aborts_witness :
    (noSysItem.system = none →
      mapFieldsF cfg0 reg0 1 (some noSysItem) [] qc0 .arr dupPre =
        (dupPre, .error .missingSystem)) ∧
    (∀ sys, noSysItem.system = some sys → noSysItem.elements = none →
      mapFieldsF cfg0 reg0 1 (some noSysItem) [] qc0 .arr dupPre =
        (dupPre, .error (.missingElements sys.codename))) ∧
    (wfRawItem noSysItem → wfMC [] → ProcArg.arr = ProcArg.arr →
      ∀ st' e, mapFieldsF cfg0 reg0 1 (some noSysItem) [] qc0 .arr dupPre =
          (st', .error e) →
        e.isMalformedResponse = false) :=
  mapFields_malformed_response_aborts cfg0 reg0 1 noSysItem [] qc0 .arr dupPre
    (by decide)
